import Mathlib

/-!
Shallow embedding of the `mig` migration tool (github.com/arthurdotwork/mig).

The embedding covers the three core components of the repository:

* the migration source (`internal/migrations/migrations.go`): filename
  pattern matching, timestamp parsing, directory loading, migration-file
  creation, and the pending-set computation;
* the applied-state store (`internal/database/database.go`): the
  `mig_versions` and `mig_history` tables with their insert and query
  operations, including the transaction-or-none parameter;
* the execution engine (`internal/executor/executor.go`):
  `ExecuteMigration`, `ExecuteNextMigration`, `ExecuteAllMigrations`.

A directory is modelled as a list of entries (name, is-directory flag,
content); the database is modelled as an explicit state holding the list of
successfully executed statement batches and the rows of the two bookkeeping
tables.  Fallible external effects (statement execution, inserts, queries,
begin/commit) are driven by an `Oracle` of failure flags, so that theorems
can quantify over every failure pattern the Go code can observe.
-/

/-- A calendar timestamp with one-second precision, the parse result of the
`YYYY_MM_DD_HH_MM_SS` filename component (Go layout `2006_01_02_15_04_05`). -/
structure Timestamp where
  year : Nat
  month : Nat
  day : Nat
  hour : Nat
  minute : Nat
  second : Nat
  deriving DecidableEq, Repr

/-- Leap-year rule used by Go's `time` package for day-of-month validation. -/
def isLeapYear (y : Nat) : Bool :=
  y % 4 == 0 && (y % 100 != 0 || y % 400 == 0)

/-- Number of days of month `m` in year `y` (Go `daysIn`). -/
def daysInMonth (y m : Nat) : Nat :=
  if m = 2 then (if isLeapYear y then 29 else 28)
  else if m = 4 ∨ m = 6 ∨ m = 9 ∨ m = 11 then 30
  else 31

/-- The range checks Go's `time.Parse` performs on the six numeric fields of
the layout `2006_01_02_15_04_05`: month 1..12, day 1..days-in-month,
hour 0..23, minute 0..59, second 0..59; a four-digit year is at most 9999. -/
def validTimestamp (t : Timestamp) : Bool :=
  decide (1 ≤ t.month) && decide (t.month ≤ 12) && decide (1 ≤ t.day) &&
  decide (t.day ≤ daysInMonth t.year t.month) && decide (t.hour ≤ 23) &&
  decide (t.minute ≤ 59) && decide (t.second ≤ 59) && decide (t.year ≤ 9999)

/-- Chronological key of a timestamp: the base-100 packing of its fields.
For field values in the ranges checked by `validTimestamp` this packing is
strictly monotone in the lexicographic field order, so comparing keys is
comparing instants (Go `time.Before` / `time.Equal` on parsed values). -/
def Timestamp.key (t : Timestamp) : Nat :=
  ((((t.year * 100 + t.month) * 100 + t.day) * 100 + t.hour) * 100 + t.minute) * 100 + t.second

/-- Numeric value of a list of decimal digit characters. -/
def digitsToNat (cs : List Char) : Nat :=
  cs.foldl (fun n c => n * 10 + (c.toNat - 48)) 0

/-- Go `time.Parse("2006_01_02_15_04_05", s)`: the layout's underscores are
literal (none is followed by `'2'`, so Go's `_2` padding rule never fires),
each field is exactly-two (resp. four) digits, and the assembled fields are
range-checked.  `none` models the `*time.ParseError` return. -/
def parseTimestamp (s : String) : Option Timestamp :=
  match s.data with
  | [y1, y2, y3, y4, _, a1, a2, _, b1, b2, _, c1, c2, _, d1, d2, _, e1, e2] =>
      let t : Timestamp :=
        ⟨digitsToNat [y1, y2, y3, y4], digitsToNat [a1, a2], digitsToNat [b1, b2],
         digitsToNat [c1, c2], digitsToNat [d1, d2], digitsToNat [e1, e2]⟩
      if validTimestamp t then some t else none
  | _ => none

/-- The character class `[a-zA-Z0-9_]` of the migration filename pattern. -/
def isNameChar (c : Char) : Bool :=
  ('a' ≤ c && c ≤ 'z') || ('A' ≤ c && c ≤ 'Z') || ('0' ≤ c && c ≤ '9') || c == '_'

/-- The four characters of the fixed `.sql` extension. -/
def sqlSuffix : List Char := ['.', 's', 'q', 'l']

/-- Shape of the 19-character timestamp component
`\d{4}_\d{2}_\d{2}_\d{2}_\d{2}_\d{2}` of the filename pattern. -/
def datePartShape (cs : List Char) : Bool :=
  match cs with
  | [y1, y2, y3, y4, u1, a1, a2, u2, b1, b2, u3, c1, c2, u4, d1, d2, u5, e1, e2] =>
      y1.isDigit && y2.isDigit && y3.isDigit && y4.isDigit && u1 == '_' &&
      a1.isDigit && a2.isDigit && u2 == '_' && b1.isDigit && b2.isDigit && u3 == '_' &&
      c1.isDigit && c2.isDigit && u4 == '_' && d1.isDigit && d2.isDigit && u5 == '_' &&
      e1.isDigit && e2.isDigit
  | _ => false

/-- The anchored regular expression
`^(\d{4}_\d{2}_\d{2}_\d{2}_\d{2}_\d{2})_([a-zA-Z0-9_]+)\.sql$`
(`migrationPattern` in the source), returning the two capture groups.
Because the first group has a rigid 19-character shape, the literal `_`
follows it, and the name class excludes `'.'` while `\.sql$` pins the last
four characters, a match decomposes the filename uniquely as
`date ++ "_" ++ name ++ ".sql"`. -/
def matchMigrationPattern (filename : String) : Option (String × String) :=
  match filename.data.drop 19 with
  | '_' :: rest =>
      if datePartShape (filename.data.take 19) &&
         !(rest.take (rest.length - 4)).isEmpty &&
         (rest.take (rest.length - 4)).all isNameChar &&
         rest.drop (rest.length - 4) == sqlSuffix then
        some (String.mk (filename.data.take 19), String.mk (rest.take (rest.length - 4)))
      else none
  | _ => none

/-- `strings.Contains` on the character level.  The needles searched for in
this development are pure ASCII, for which byte-level search (Go) and
character-level search coincide: an ASCII byte never occurs inside a
multi-byte UTF-8 sequence. -/
def listContainsSub (l pat : List Char) : Bool :=
  (List.range (l.length + 1)).any (fun i => pat.isPrefixOf (l.drop i))

/-- `strings.Contains` on strings. -/
def containsSub (s pat : String) : Bool :=
  listContainsSub s.data pat.data

/-- The transaction-disabling directive token searched for in file content. -/
def disableTxToken : String := "-- disable-tx"

/-- `migrations.Migration`: one discovered migration file. -/
structure Migration where
  ID : String
  Name : String
  Filename : String
  Content : String
  DisableTx : Bool
  CreatedAt : Timestamp
  deriving DecidableEq, Repr

/-- One entry of a directory listing, as surfaced by `os.ReadDir` together
with the subsequent `os.ReadFile`: a name, an is-directory flag, and the
file content (meaningful only for regular files). -/
structure DirEntry where
  name : String
  isDir : Bool
  content : String
  deriving DecidableEq, Repr

/-- Load-time failure: the filename matched the pattern but its timestamp
component is not a valid calendar timestamp (`time.Parse` error). -/
inductive LoadErr where
  | parseErr (filename : String)
  deriving DecidableEq, Repr

/-- The comparator of `LoadMigrations`' `sort.Slice` call: earlier creation
time first, ties broken by lexicographically smaller `ID`. -/
def migLess (a b : Migration) : Bool :=
  if a.CreatedAt.key = b.CreatedAt.key then decide (a.ID < b.ID)
  else decide (a.CreatedAt.key < b.CreatedAt.key)

/-- The non-strict order induced by the `sort.Slice` comparator. -/
def MigLe (a b : Migration) : Prop := migLess b a = false

instance : DecidableRel MigLe := fun a b => instDecidableEqBool (migLess b a) false

/-- The sort performed at the end of `LoadMigrations`.  `sort.Slice` is an
unstable comparison sort; on lists whose elements are pairwise distinct
under the comparator (the case for any real directory, where filenames and
hence IDs are unique) every comparison sort produces the same list, so a
deterministic insertion sort is a faithful model. -/
def sortMigrations (l : List Migration) : List Migration :=
  List.insertionSort MigLe l

/-- The `Migration` value `LoadMigrations` constructs for one matching file:
the id is `<dateStr>_<name>`, the content is the file body, and `DisableTx`
is the substring search for the directive token anywhere in the body. -/
def mkMigration (e : DirEntry) (dateStr nm : String) (t : Timestamp) : Migration :=
  ⟨dateStr ++ "_" ++ nm, nm, e.name, e.content,
   containsSub e.content disableTxToken, t⟩

/-- The per-entry loop body of `LoadMigrations` over the directory listing:
subdirectories and non-`.sql` names are skipped, pattern mismatches are
skipped, a pattern match with an invalid timestamp aborts the whole load,
and a pattern match with a valid timestamp yields a `Migration` whose
`DisableTx` flag is the substring search for the directive token. -/
def processEntries : List DirEntry → Except LoadErr (List Migration)
  | [] => Except.ok []
  | e :: rest =>
      if e.isDir || !(sqlSuffix.isSuffixOf e.name.data) then processEntries rest
      else
        match matchMigrationPattern e.name with
        | none => processEntries rest
        | some (dateStr, nm) =>
            match parseTimestamp dateStr with
            | none => Except.error (LoadErr.parseErr e.name)
            | some t =>
                (processEntries rest).map (fun ms => mkMigration e dateStr nm t :: ms)

/-- `migrations.LoadMigrations`: process the directory listing, then sort by
(creation time, ID). -/
def loadMigrations (dir : List DirEntry) : Except LoadErr (List Migration) :=
  (processEntries dir).map sortMigrations

/-- `database.MigrationVersion`: one row of `mig_versions`. -/
structure MigrationVersion where
  ID : Nat
  Version : String
  AppliedAt : Nat
  deriving DecidableEq, Repr

/-- `migrations.GetPendingMigrations`: keep, in order, the loaded migrations
whose `ID` is not the `Version` of any cached applied record.  The Go code
materialises the applied set as a map; membership in that map is membership
of the `Version` projection. -/
def getPendingMigrations (allMigrations : List Migration)
    (appliedMigrations : List MigrationVersion) : List Migration :=
  allMigrations.filter
    (fun m => !(appliedMigrations.any (fun a => a.Version == m.ID)))

/-- Decimal digit character of `n % 10`. -/
def digitChar (n : Nat) : Char := Char.ofNat (48 + n % 10)

/-- Two-digit zero-padded decimal rendering, faithful to Go's
`Format` for values below 100 (every value produced by a valid clock). -/
def format2 (n : Nat) : List Char := [digitChar (n / 10), digitChar n]

/-- Four-digit zero-padded decimal rendering, faithful to Go's
`Format` for values below 10000. -/
def format4 (n : Nat) : List Char :=
  [digitChar (n / 1000), digitChar (n / 100), digitChar (n / 10), digitChar n]

/-- `now.Format("2006_01_02_15_04_05")`: the filename timestamp component. -/
def formatTimestamp (t : Timestamp) : String :=
  String.mk (format4 t.year ++ '_' :: format2 t.month ++ '_' :: format2 t.day ++
    '_' :: format2 t.hour ++ '_' :: format2 t.minute ++ '_' :: format2 t.second)

/-- `now.Format("2006-01-02 15:04:05")`: the display timestamp interpolated
into the template body. -/
def formatDisplayTime (t : Timestamp) : String :=
  String.mk (format4 t.year ++ '-' :: format2 t.month ++ '-' :: format2 t.day ++
    ' ' :: format2 t.hour ++ ':' :: format2 t.minute ++ ':' :: format2 t.second)

/-- The name sanitization of `CreateMigrationFile`: replace every space with
an underscore (`strings.ReplaceAll`), then delete every character outside
`[a-zA-Z0-9_]` (`regexp.ReplaceAllString` with the complement class). -/
def sanitizeName (name : String) : String :=
  String.mk ((name.data.map (fun c => if c == ' ' then '_' else c)).filter isNameChar)

/-- The placeholder body written by `CreateMigrationFile`, with the two
`%s` interpolations (sanitized name, display-formatted creation time). -/
def migrationTemplate (sanitizedName displayTime : String) : String :=
  "-- Migration: " ++ sanitizedName ++ "\n-- Created at: " ++ displayTime ++
    "\n-- \n-- Note: \n-- Add \"-- disable-tx\" anywhere in this file to disable transaction wrapping.\n\n-- Your SQL goes here\n"

/-- Creation failure: the exact target filename already exists. -/
inductive CreateErr where
  | alreadyExists (filename : String)
  deriving DecidableEq, Repr

/-- `migrations.CreateMigrationFile`: stamp `now`, sanitize the name, build
the target filename, fail if an entry of that name exists (`os.Stat`
succeeding), otherwise write the templated file.  The returned directory
listing is the input with the new entry appended (`os.WriteFile`). -/
def createMigrationFile (dir : List DirEntry) (name : String) (now : Timestamp) :
    Except CreateErr (String × List DirEntry) :=
  let dateStr := formatTimestamp now
  let sanitized := sanitizeName name
  let filename := dateStr ++ "_" ++ sanitized ++ ".sql"
  if dir.any (fun e => e.name == filename) then
    Except.error (CreateErr.alreadyExists filename)
  else
    Except.ok (filename,
      dir ++ [⟨filename, false, migrationTemplate sanitized (formatDisplayTime now)⟩])

/-- One row of the append-only `mig_history` table. -/
structure HistoryRow where
  ID : Nat
  Version : String
  Command : String
  deriving DecidableEq, Repr

/-- The observable database state: the statement batches that have
successfully executed (the migrations' opaque SQL side effects), and the
committed rows of the two bookkeeping tables, each in insertion order (the
order `SELECT ... ORDER BY id` returns, since row ids are assigned by an
increasing sequence and execution is single-threaded). -/
structure DBState where
  executed : List String
  versions : List MigrationVersion
  history : List HistoryRow
  deriving DecidableEq, Repr

/-- Uncommitted effects buffered inside one open `*sql.Tx`: applied to the
database on commit, discarded on rollback. -/
structure TxBuf where
  executed : List String
  versions : List MigrationVersion
  history : List HistoryRow
  deriving DecidableEq, Repr

/-- Failure injection for the external database effects: which statement
batches fail to execute, which bookkeeping inserts fail (beyond the
uniqueness violation, which the model forces), and whether begin/commit and
the applied-set query fail. -/
structure Oracle where
  beginFails : Bool
  execFails : String → Bool
  recordFails : String → Bool
  historyFails : String → Bool
  commitFails : Bool
  queryFails : Bool

/-- The errors surfaced by the store and the executor, mirroring the
`fmt.Errorf` wrap sites of the Go code. -/
inductive ExecErr where
  | beginFailed (id : String)
  | execFailed (id : String)
  | recordFailed
  | historyFailed
  | commitFailed (id : String)
  | queryFailed
  deriving DecidableEq, Repr

/-- Append a `mig_versions` row; the serial id continues the committed
sequence and `applied_at` is server-assigned at write time. -/
def dbInsertVersion (db : DBState) (version : String) : DBState :=
  ⟨db.executed,
   db.versions ++ [⟨db.versions.length + 1, version, db.versions.length⟩],
   db.history⟩

/-- Buffer a `mig_versions` insert inside an open transaction. -/
def txInsertVersion (db : DBState) (buf : TxBuf) (version : String) : TxBuf :=
  ⟨buf.executed,
   buf.versions ++ [⟨db.versions.length + buf.versions.length + 1, version,
     db.versions.length + buf.versions.length⟩],
   buf.history⟩

/-- Append a `mig_history` row. -/
def dbInsertHistory (db : DBState) (version content : String) : DBState :=
  ⟨db.executed, db.versions,
   db.history ++ [⟨db.history.length + 1, version, content⟩]⟩

/-- Buffer a `mig_history` insert inside an open transaction. -/
def txInsertHistory (db : DBState) (buf : TxBuf) (version content : String) : TxBuf :=
  ⟨buf.executed, buf.versions,
   buf.history ++ [⟨db.history.length + buf.history.length + 1, version, content⟩]⟩

/-- Does `version` violate the `mig_versions` uniqueness constraint?  Inside
a transaction the connection sees its own buffered inserts as well as the
committed rows. -/
def versionExists (db : DBState) (buf? : Option TxBuf) (version : String) : Bool :=
  db.versions.any (fun v => v.Version == version) ||
    (match buf? with
     | some buf => buf.versions.any (fun v => v.Version == version)
     | none => false)

/-- `database.RecordMigration(db, version, tx)`: insert into `mig_versions`
through the transaction when one is supplied, directly (autocommit)
otherwise.  The insert fails on an injected fault or on a uniqueness
violation.  The returned pair carries the possibly-updated database and the
possibly-updated transaction buffer; a caller that passed `none` reads only
the database (the buffer slot is a dummy), a caller that passed `some` reads
only the buffer. -/
def recordMigration (o : Oracle) (db : DBState) (version : String)
    (tx : Option TxBuf) : Option ExecErr × DBState × TxBuf :=
  match tx with
  | some buf =>
      if o.recordFails version || versionExists db (some buf) version then
        (some ExecErr.recordFailed, db, buf)
      else (none, db, txInsertVersion db buf version)
  | none =>
      if o.recordFails version || versionExists db none version then
        (some ExecErr.recordFailed, db, ⟨[], [], []⟩)
      else (none, dbInsertVersion db version, ⟨[], [], []⟩)

/-- `database.RecordHistory(db, version, sqlContent, tx)`: insert into
`mig_history`, which carries no uniqueness constraint. -/
def recordHistory (o : Oracle) (db : DBState) (version content : String)
    (tx : Option TxBuf) : Option ExecErr × DBState × TxBuf :=
  match tx with
  | some buf =>
      if o.historyFails version then (some ExecErr.historyFailed, db, buf)
      else (none, db, txInsertHistory db buf version content)
  | none =>
      if o.historyFails version then (some ExecErr.historyFailed, db, ⟨[], [], []⟩)
      else (none, dbInsertHistory db version content, ⟨[], [], []⟩)

/-- `tx.Commit()`: apply the buffered effects to the database. -/
def commitTx (db : DBState) (buf : TxBuf) : DBState :=
  ⟨db.executed ++ buf.executed, db.versions ++ buf.versions, db.history ++ buf.history⟩

/-- `database.GetAppliedMigrations`: `SELECT id, version, applied_at FROM
mig_versions ORDER BY id`, i.e. the committed rows in insertion order. -/
def getAppliedMigrations (o : Oracle) (db : DBState) :
    Option ExecErr × List MigrationVersion :=
  if o.queryFails then (some ExecErr.queryFailed, []) else (none, db.versions)

/-- `executor.Executor`: the loaded migration list and the cached applied
records (both point-in-time snapshots), plus the database the executor's
connection reaches. -/
structure ExecState where
  migrations : List Migration
  applied : List MigrationVersion
  db : DBState
  deriving DecidableEq, Repr

/-- `Executor.GetPendingMigrations`: delegates to the pure
`migrations.GetPendingMigrations` on the two cached snapshots. -/
def executorPending (s : ExecState) : List Migration :=
  getPendingMigrations s.migrations s.applied

/-- `Executor.ExecuteMigration`: the two execution modes.  With `DisableTx`
the content runs directly on the connection and the two bookkeeping inserts
autocommit one by one; otherwise everything runs inside one transaction
which is rolled back (buffer discarded, database unchanged) on any failure
and committed as a unit on success. -/
def executeMigration (o : Oracle) (db : DBState) (m : Migration) :
    Option ExecErr × DBState :=
  if m.DisableTx then
    if o.execFails m.Content then (some (ExecErr.execFailed m.ID), db)
    else
      let db1 : DBState := ⟨db.executed ++ [m.Content], db.versions, db.history⟩
      match recordMigration o db1 m.ID none with
      | (some e, db2, _) => (some e, db2)
      | (none, db2, _) =>
          match recordHistory o db2 m.ID m.Content none with
          | (some e, db3, _) => (some e, db3)
          | (none, db3, _) => (none, db3)
  else
    if o.beginFails then (some (ExecErr.beginFailed m.ID), db)
    else if o.execFails m.Content then (some (ExecErr.execFailed m.ID), db)
    else
      match recordMigration o db m.ID (some ⟨[m.Content], [], []⟩) with
      | (some e, _, _) => (some e, db)
      | (none, _, buf2) =>
          match recordHistory o db m.ID m.Content (some buf2) with
          | (some e, _, _) => (some e, db)
          | (none, _, buf3) =>
              if o.commitFails then (some (ExecErr.commitFailed m.ID), db)
              else (none, commitTx db buf3)

/-- `Executor.ExecuteNextMigration`: run the first pending migration if any,
then re-fetch the applied set; the cache is replaced only when the re-fetch
succeeds.  Returns (a migration ran, error, new executor state). -/
def executeNextMigration (o : Oracle) (s : ExecState) :
    Bool × Option ExecErr × ExecState :=
  match executorPending s with
  | [] => (false, none, s)
  | m :: _ =>
      match executeMigration o s.db m with
      | (some e, db1) => (false, some e, ⟨s.migrations, s.applied, db1⟩)
      | (none, db1) =>
          match getAppliedMigrations o db1 with
          | (some e, _) => (true, some e, ⟨s.migrations, s.applied, db1⟩)
          | (none, applied1) => (true, none, ⟨s.migrations, applied1, db1⟩)

/-- The `for` loop of `Executor.ExecuteAllMigrations`, with an explicit
iteration budget: `none` means the budget was exhausted before the loop
returned.  The Go loop is unbounded; every theorem below exhibits a budget
under which the loop returns, and the result is independent of any larger
budget (`executeAllLoop_mono`), so the budgeted function is a faithful
embedding of the loop on every input where it is `some`. -/
def executeAllLoop (o : Oracle) : Nat → Nat → ExecState →
    Option ((Nat × Option ExecErr) × ExecState)
  | 0, _, _ => none
  | fuel + 1, count, s =>
      match executeNextMigration o s with
      | (_, some e, s1) => some ((count, some e), s1)
      | (false, none, s1) => some ((count, none), s1)
      | (true, none, s1) => executeAllLoop o fuel (count + 1) s1

/-- `Executor.ExecuteAllMigrations`: the loop started with count 0. -/
def executeAllMigrations (o : Oracle) (fuel : Nat) (s : ExecState) :
    Option ((Nat × Option ExecErr) × ExecState) :=
  executeAllLoop o fuel 0 s

/-- The fault-free oracle: every external effect succeeds (uniqueness
violations still fail, as they do on a real database). -/
def happyOracle : Oracle :=
  ⟨false, fun _ => false, fun _ => false, fun _ => false, false, false⟩

/-! ### Order-theoretic facts about the `sort.Slice` comparator -/

theorem migLess_iff (a b : Migration) :
    migLess a b = true ↔
      (a.CreatedAt.key < b.CreatedAt.key ∨
        (a.CreatedAt.key = b.CreatedAt.key ∧ a.ID < b.ID)) := by
  unfold migLess
  split_ifs with h
  · simp [h, decide_eq_true_eq]
  · simp [h, decide_eq_true_eq]

theorem MigLe_iff (a b : Migration) :
    MigLe a b ↔
      (a.CreatedAt.key < b.CreatedAt.key ∨
        (a.CreatedAt.key = b.CreatedAt.key ∧ a.ID ≤ b.ID)) := by
  unfold MigLe
  rw [Bool.eq_false_iff, Ne, migLess_iff]
  constructor
  · intro h
    rcases Nat.lt_trichotomy a.CreatedAt.key b.CreatedAt.key with hlt | heq | hgt
    · exact Or.inl hlt
    · refine Or.inr ⟨heq, ?_⟩
      by_contra hid
      exact h (Or.inr ⟨heq.symm, lt_of_not_le hid⟩)
    · exact absurd (Or.inl hgt) h
  · rintro (hlt | ⟨heq, hle⟩) (hlt' | ⟨heq', hlt''⟩)
    · omega
    · omega
    · omega
    · exact absurd hlt'' (not_lt_of_le hle)

instance : IsTotal Migration MigLe := by
  constructor
  intro a b
  rw [MigLe_iff, MigLe_iff]
  rcases Nat.lt_trichotomy a.CreatedAt.key b.CreatedAt.key with hlt | heq | hgt
  · exact Or.inl (Or.inl hlt)
  · rcases le_total a.ID b.ID with hid | hid
    · exact Or.inl (Or.inr ⟨heq, hid⟩)
    · exact Or.inr (Or.inr ⟨heq.symm, hid⟩)
  · exact Or.inr (Or.inl hgt)

instance : IsTrans Migration MigLe := by
  constructor
  intro a b c hab hbc
  rw [MigLe_iff] at hab hbc ⊢
  rcases hab with hlt | ⟨heq, hle⟩ <;> rcases hbc with hlt' | ⟨heq', hle'⟩
  · exact Or.inl (lt_trans hlt hlt')
  · exact Or.inl (heq' ▸ hlt)
  · exact Or.inl (heq ▸ hlt')
  · exact Or.inr ⟨heq.trans heq', le_trans hle hle'⟩

theorem sorted_sortMigrations (l : List Migration) :
    List.Sorted MigLe (sortMigrations l) :=
  List.sorted_insertionSort MigLe l

theorem perm_sortMigrations (l : List Migration) : List.Perm (sortMigrations l) l :=
  List.perm_insertionSort MigLe l

/-- The base-100 key is injective on timestamps passing the
`time.Parse` range checks. -/
theorem key_inj_of_valid {a b : Timestamp} (ha : validTimestamp a = true)
    (hb : validTimestamp b = true) (h : a.key = b.key) : a = b := by
  have hda : daysInMonth a.year a.month ≤ 31 := by
    unfold daysInMonth
    split_ifs <;> omega
  have hdb : daysInMonth b.year b.month ≤ 31 := by
    unfold daysInMonth
    split_ifs <;> omega
  simp only [validTimestamp, Bool.and_eq_true, decide_eq_true_eq] at ha hb
  simp only [Timestamp.key] at h
  obtain ⟨year, month, day, hour, minute, second⟩ := a
  obtain ⟨year', month', day', hour', minute', second'⟩ := b
  simp_all only [Timestamp.mk.injEq]
  omega

/-! ### Facts about the filename pattern -/

theorem datePartShape_length {cs : List Char} (h : datePartShape cs = true) :
    cs.length = 19 := by
  unfold datePartShape at h
  split at h
  · simp_all
  · simp at h

/-- A pattern match decomposes the filename as
`<date:19 chars> ++ "_" ++ <name> ++ ".sql"` with the advertised shape
conditions on the two capture groups. -/
theorem matchPattern_spec {f d nm : String}
    (h : matchMigrationPattern f = some (d, nm)) :
    f.data = d.data ++ '_' :: (nm.data ++ sqlSuffix) ∧
    datePartShape d.data = true ∧ nm.data ≠ [] ∧ nm.data.all isNameChar = true := by
  unfold matchMigrationPattern at h
  split at h
  case h_2 => simp at h
  case h_1 c rest heq =>
    split at h
    case isFalse => simp at h
    case isTrue hc =>
      simp only [Bool.and_eq_true, Bool.not_eq_true', List.isEmpty_eq_false,
        beq_iff_eq, ne_eq] at hc
      obtain ⟨⟨⟨hshape, hne⟩, hall⟩, hext⟩ := hc
      injection h with h
      rw [Prod.mk.injEq] at h
      obtain ⟨hd, hnm⟩ := h
      subst hd; subst hnm
      refine ⟨?_, hshape, hne, hall⟩
      show f.data = List.take 19 f.data ++ '_' :: (List.take (rest.length - 4) rest ++ sqlSuffix)
      rw [← hext, List.take_append_drop, ← heq, List.take_append_drop]

/-- Converse construction: a filename of the shape
`<date:19 chars shaped> ++ "_" ++ <nonempty class-restricted name> ++ ".sql"`
matches the pattern with exactly those capture groups. -/
theorem matchPattern_mk {f : String} {dp nm : List Char}
    (hf : f.data = dp ++ '_' :: (nm ++ sqlSuffix))
    (hdp : datePartShape dp = true) (hnm : nm ≠ [])
    (hall : nm.all isNameChar = true) :
    matchMigrationPattern f = some (String.mk dp, String.mk nm) := by
  have hlen : dp.length = 19 := datePartShape_length hdp
  have hdrop : f.data.drop 19 = '_' :: (nm ++ sqlSuffix) := by
    rw [hf]; exact List.drop_left' hlen
  have htake : f.data.take 19 = dp := by
    rw [hf]; exact List.take_left' hlen
  have hrl : (nm ++ sqlSuffix).length - 4 = nm.length := by simp [sqlSuffix]
  have ht2 : (nm ++ sqlSuffix).take ((nm ++ sqlSuffix).length - 4) = nm := by
    rw [hrl]; exact List.take_left' rfl
  have hd2 : (nm ++ sqlSuffix).drop ((nm ++ sqlSuffix).length - 4) = sqlSuffix := by
    rw [hrl]; exact List.drop_left' rfl
  unfold matchMigrationPattern
  split
  case h_1 c rest heq =>
    rw [hdrop] at heq
    injection heq with hc hrest
    subst hrest
    rw [htake, ht2, hd2]
    simp [hdp, hall, List.isEmpty_eq_false.mpr hnm]
  case h_2 hno =>
    exact absurd hdrop (hno _)

/-- Any filename matching the pattern ends in `.sql` (so the source's
`strings.HasSuffix` pre-check never rejects a pattern match). -/
theorem matchPattern_suffix {f d nm : String}
    (h : matchMigrationPattern f = some (d, nm)) :
    sqlSuffix.isSuffixOf f.data = true := by
  obtain ⟨hf, -, -, -⟩ := matchPattern_spec h
  rw [List.isSuffixOf_iff_suffix, hf,
    show d.data ++ '_' :: (nm.data ++ sqlSuffix) =
      (d.data ++ '_' :: nm.data) ++ sqlSuffix by simp]
  exact List.suffix_append _ _

/-- A matching filename is exactly `<date>_<name>.sql`, i.e. the migration
id (`<date>_<name>`) plus the fixed extension: the id determines the
filename. -/
theorem matchPattern_filename {f d nm : String}
    (h : matchMigrationPattern f = some (d, nm)) :
    f = d ++ "_" ++ nm ++ ".sql" := by
  obtain ⟨hf, -, -, -⟩ := matchPattern_spec h
  have h1 : ("_" : String).data = ['_'] := rfl
  have h2 : (".sql" : String).data = sqlSuffix := rfl
  apply String.ext
  rw [hf]
  simp [String.data_append, h1, h2, sqlSuffix]

/-- A successful `time.Parse` only returns range-checked timestamps. -/
theorem parse_valid {s : String} {t : Timestamp}
    (h : parseTimestamp s = some t) : validTimestamp t = true := by
  simp only [parseTimestamp] at h
  split at h
  · split at h
    · injection h with h; subst h; assumption
    · simp at h
  · simp at h

/-! ### Facts about the per-entry loading loop -/

/-- Every migration produced by the loading loop comes from a regular file
of the directory whose name matches the pattern and whose timestamp
parses. -/
theorem processEntries_sound {dir : List DirEntry} {ms : List Migration}
    (h : processEntries dir = Except.ok ms) :
    ∀ m ∈ ms, ∃ e ∈ dir, e.isDir = false ∧ ∃ d nm t,
      matchMigrationPattern e.name = some (d, nm) ∧ parseTimestamp d = some t ∧
      m = mkMigration e d nm t := by
  induction dir generalizing ms with
  | nil =>
    simp only [processEntries, Except.ok.injEq] at h
    subst h
    simp
  | cons e rest ih =>
    simp only [processEntries] at h
    split at h
    · intro m hm
      obtain ⟨e', he', hrest⟩ := ih h m hm
      exact ⟨e', List.mem_cons_of_mem _ he', hrest⟩
    · rename_i hskip
      split at h
      · intro m hm
        obtain ⟨e', he', hrest⟩ := ih h m hm
        exact ⟨e', List.mem_cons_of_mem _ he', hrest⟩
      · rename_i d nm hpat
        split at h
        · exact Except.noConfusion h
        · rename_i t hparse
          cases hrec : processEntries rest with
          | error err => rw [hrec] at h; simp [Except.map] at h
          | ok l =>
            rw [hrec] at h
            simp only [Except.map, Except.ok.injEq] at h
            subst h
            intro m hm
            rcases List.mem_cons.mp hm with hm | hm
            · subst hm
              refine ⟨e, List.mem_cons_self e rest, ?_, d, nm, t, hpat, hparse, rfl⟩
              simp only [Bool.or_eq_true, Bool.not_eq_true'] at hskip
              exact eq_false_of_ne_true (fun hd => hskip (Or.inl hd))
            · obtain ⟨e', he', hrest⟩ := ih hrec m hm
              exact ⟨e', List.mem_cons_of_mem _ he', hrest⟩

/-- Every regular file of the directory whose name matches the pattern
contributes a migration to a successful load. -/
theorem processEntries_complete {dir : List DirEntry} {ms : List Migration}
    (h : processEntries dir = Except.ok ms) :
    ∀ e ∈ dir, e.isDir = false → ∀ d nm,
      matchMigrationPattern e.name = some (d, nm) →
      ∃ t, parseTimestamp d = some t ∧ mkMigration e d nm t ∈ ms := by
  induction dir generalizing ms with
  | nil => simp
  | cons e0 rest ih =>
    intro e he hdir d nm hpat
    simp only [processEntries] at h
    rcases List.mem_cons.mp he with he | he
    · subst he
      split at h
      · rename_i hskip
        simp only [Bool.or_eq_true, Bool.not_eq_true'] at hskip
        rcases hskip with hd | hs
        · rw [hdir] at hd; cases hd
        · rw [matchPattern_suffix hpat] at hs; cases hs
      · split at h
        · rename_i hnone
          rw [hpat] at hnone; cases hnone
        · rename_i d' nm' hpat'
          rw [hpat] at hpat'
          injection hpat' with hpair
          rw [Prod.mk.injEq] at hpair
          obtain ⟨hd, hnm⟩ := hpair
          subst hd; subst hnm
          split at h
          · exact Except.noConfusion h
          · rename_i t hparse
            cases hrec : processEntries rest with
            | error err => rw [hrec] at h; simp [Except.map] at h
            | ok l =>
              rw [hrec] at h
              simp only [Except.map, Except.ok.injEq] at h
              subst h
              exact ⟨t, hparse, List.mem_cons_self _ _⟩
    · -- the entry lives in the tail
      split at h
      · obtain ⟨t, hp, hmem⟩ := ih h e he hdir d nm hpat
        exact ⟨t, hp, hmem⟩
      · split at h
        · obtain ⟨t, hp, hmem⟩ := ih h e he hdir d nm hpat
          exact ⟨t, hp, hmem⟩
        · split at h
          · exact Except.noConfusion h
          · cases hrec : processEntries rest with
            | error err => rw [hrec] at h; simp [Except.map] at h
            | ok l =>
              rw [hrec] at h
              simp only [Except.map, Except.ok.injEq] at h
              subst h
              obtain ⟨t, hp, hmem⟩ := ih hrec e he hdir d nm hpat
              exact ⟨t, hp, List.mem_cons_of_mem _ hmem⟩

/-- The filenames of a successful load are a sublist of the directory's
entry names (each entry contributes at most once, in order). -/
theorem processEntries_names {dir : List DirEntry} {ms : List Migration}
    (h : processEntries dir = Except.ok ms) :
    List.Sublist (ms.map Migration.Filename) (dir.map DirEntry.name) := by
  induction dir generalizing ms with
  | nil =>
    simp only [processEntries, Except.ok.injEq] at h
    subst h; simp
  | cons e rest ih =>
    simp only [processEntries] at h
    split at h
    · exact (ih h).trans (List.sublist_cons_self _ _)
    · split at h
      · exact (ih h).trans (List.sublist_cons_self _ _)
      · split at h
        · exact Except.noConfusion h
        · cases hrec : processEntries rest with
          | error err => rw [hrec] at h; simp [Except.map] at h
          | ok l =>
            rw [hrec] at h
            simp only [Except.map, Except.ok.injEq] at h
            subst h
            exact List.Sublist.cons₂ _ (ih hrec)

/-- One regular file matching the pattern with an unparseable timestamp
makes the whole loading loop fail, wherever it occurs in the listing. -/
theorem processEntries_error_of_invalid {dir : List DirEntry} {e : DirEntry}
    {d nm : String} (he : e ∈ dir) (hdir : e.isDir = false)
    (hpat : matchMigrationPattern e.name = some (d, nm))
    (hparse : parseTimestamp d = none) :
    (processEntries dir).isOk = false := by
  induction dir with
  | nil => cases he
  | cons e0 rest ih =>
    rcases List.mem_cons.mp he with he0 | he0
    · subst he0
      simp only [processEntries]
      split
      · rename_i hskip
        simp only [Bool.or_eq_true, Bool.not_eq_true'] at hskip
        rcases hskip with hd | hs
        · rw [hdir] at hd; cases hd
        · rw [matchPattern_suffix hpat] at hs; cases hs
      · split
        · rename_i hnone; rw [hpat] at hnone; cases hnone
        · rename_i d' nm' hpat'
          rw [hpat] at hpat'
          injection hpat' with hpair
          rw [Prod.mk.injEq] at hpair
          obtain ⟨hd, hnm⟩ := hpair
          subst hd
          split
          · rfl
          · rename_i t hp; rw [hparse] at hp; cases hp
    · have htail := ih he0
      simp only [processEntries]
      split
      · exact htail
      · split
        · exact htail
        · split
          · rfl
          · cases hrec : processEntries rest with
            | error err => rfl
            | ok l => rw [hrec] at htail; cases htail

/-- Entries that are directories or whose names do not match the pattern
are transparent to the loading loop: dropping them changes nothing
(non-matching files are skipped silently, never errors). -/
theorem processEntries_filter_eq (dir : List DirEntry) :
    processEntries
        (dir.filter (fun e => !e.isDir && (matchMigrationPattern e.name).isSome)) =
      processEntries dir := by
  induction dir with
  | nil => rfl
  | cons e rest ih =>
    by_cases hk : (!e.isDir && (matchMigrationPattern e.name).isSome) = true
    · rw [List.filter_cons, if_pos hk]
      simp only [Bool.and_eq_true, Bool.not_eq_true'] at hk
      obtain ⟨hdir, hsome⟩ := hk
      obtain ⟨⟨d, nm⟩, hpat⟩ := Option.isSome_iff_exists.mp hsome
      have hsuf := matchPattern_suffix hpat
      simp only [processEntries, hdir, hsuf, hpat, Bool.not_true, Bool.or_false,
        Bool.false_or, if_false, ite_false]
      rw [ih]
    · rw [List.filter_cons, if_neg hk]
      by_cases hdir : e.isDir = true
      · simp only [processEntries, hdir, Bool.true_or, ite_true]
        exact ih
      · have hdir' : e.isDir = false := eq_false_of_ne_true hdir
        have hnone : matchMigrationPattern e.name = none := by
          rw [hdir'] at hk
          simp only [Bool.not_false, Bool.true_and] at hk
          exact Option.not_isSome_iff_eq_none.mp (by simpa using hk)
        by_cases hs : sqlSuffix.isSuffixOf e.name.data = true
        · simp only [processEntries, hdir', hs, hnone, Bool.not_true, Bool.or_false,
            Bool.false_or, ite_false]
          exact ih
        · have hs' : sqlSuffix.isSuffixOf e.name.data = false := eq_false_of_ne_true hs
          simp only [processEntries, hdir', hs', Bool.not_false, Bool.or_true,
            Bool.false_or, ite_true]
          exact ih

/-- The loading loop over a concatenated listing is the concatenation of
the loops, with errors propagating from left to right. -/
theorem processEntries_append (xs ys : List DirEntry) :
    processEntries (xs ++ ys) =
      (processEntries xs).bind
        (fun l₁ => (processEntries ys).map (fun l₂ => l₁ ++ l₂)) := by
  induction xs with
  | nil =>
    cases h : processEntries ys <;> simp [processEntries, Except.bind, Except.map, h]
  | cons e rest ih =>
    simp only [List.cons_append, processEntries]
    split
    · exact ih
    · split
      · exact ih
      · split
        · rfl
        · rw [List.append_eq, ih]
          cases processEntries rest <;> cases processEntries ys <;>
            simp [Except.bind, Except.map]

/-- A successful load is a sorted successful loop pass. -/
theorem loadMigrations_ok_iff {dir : List DirEntry} {ms : List Migration} :
    loadMigrations dir = Except.ok ms ↔
      ∃ l, processEntries dir = Except.ok l ∧ ms = sortMigrations l := by
  unfold loadMigrations
  cases h : processEntries dir with
  | error err => simp [Except.map]
  | ok l =>
    simp only [Except.map, Except.ok.injEq]
    constructor
    · intro hh; exact ⟨l, rfl, hh.symm⟩
    · rintro ⟨l', hl', hms⟩
      subst hl'
      exact hms.symm

/-- Loading fails exactly when the loop pass fails. -/
theorem loadMigrations_isOk {dir : List DirEntry} :
    (loadMigrations dir).isOk = (processEntries dir).isOk := by
  unfold loadMigrations
  cases processEntries dir <;> rfl

/-- The strict execution order of the loaded list: ascending creation
timestamp, ties broken by ascending lexicographic id. -/
def migStrictBefore (a b : Migration) : Prop :=
  a.CreatedAt.key < b.CreatedAt.key ∨ (a.CreatedAt = b.CreatedAt ∧ a.ID < b.ID)

/-- Loaded migrations satisfy `filename = id ++ ".sql"`: the id determines
the filename within one load. -/
theorem loaded_filename_eq {dir : List DirEntry} {ms : List Migration}
    (h : processEntries dir = Except.ok ms) :
    ∀ m ∈ ms, m.Filename = m.ID ++ ".sql" := by
  intro m hm
  obtain ⟨e, _, _, d, nm, t, hpat, _, hmk⟩ := processEntries_sound h m hm
  subst hmk
  exact matchPattern_filename hpat

/-- Loaded migrations carry range-checked timestamps. -/
theorem loaded_valid {dir : List DirEntry} {ms : List Migration}
    (h : loadMigrations dir = Except.ok ms) :
    ∀ m ∈ ms, validTimestamp m.CreatedAt = true := by
  obtain ⟨l, hl, hms⟩ := loadMigrations_ok_iff.mp h
  subst hms
  intro m hm
  have hm' : m ∈ l := ((perm_sortMigrations l).mem_iff).mp hm
  obtain ⟨e, _, _, d, nm, t, _, hparse, hmk⟩ := processEntries_sound hl m hm'
  subst hmk
  exact parse_valid hparse

/-- Distinctness of loaded ids, from distinctness of directory entry
names through the `filename = id ++ ".sql"` bijection. -/
theorem load_ids_nodup {dir : List DirEntry} {ms : List Migration}
    (hN : (dir.map DirEntry.name).Nodup)
    (h : loadMigrations dir = Except.ok ms) :
    (ms.map Migration.ID).Nodup := by
  obtain ⟨l, hl, hms⟩ := loadMigrations_ok_iff.mp h
  have hfn : (l.map Migration.Filename).Nodup := (processEntries_names hl).nodup hN
  have hmapeq : l.map Migration.Filename =
      (l.map Migration.ID).map (fun s => s ++ ".sql") := by
    rw [List.map_map]
    exact List.map_congr_left (loaded_filename_eq hl)
  rw [hmapeq] at hfn
  have hids : (l.map Migration.ID).Nodup := List.Nodup.of_map _ hfn
  subst hms
  exact (((perm_sortMigrations l).map Migration.ID).nodup_iff).mpr hids

/-- The result of a successful load is strictly ordered by
(timestamp, id). -/
theorem load_sorted_strict {dir : List DirEntry} {ms : List Migration}
    (hN : (dir.map DirEntry.name).Nodup)
    (h : loadMigrations dir = Except.ok ms) :
    List.Pairwise migStrictBefore ms := by
  obtain ⟨l, hl, hms⟩ := loadMigrations_ok_iff.mp h
  have hsorted : List.Sorted MigLe ms := hms ▸ sorted_sortMigrations l
  have hvalid := loaded_valid h
  have hnd : (ms.map Migration.ID).Nodup := load_ids_nodup hN h
  have hne : List.Pairwise (fun a b : Migration => a.ID ≠ b.ID) ms :=
    List.pairwise_map.mp hnd
  refine List.Pairwise.imp_of_mem ?_ (hsorted.and hne)
  intro a b ha hb hab
  obtain ⟨hle, hneq⟩ := hab
  rw [MigLe_iff] at hle
  rcases hle with hlt | ⟨heq, hid⟩
  · exact Or.inl hlt
  · exact Or.inr ⟨key_inj_of_valid (hvalid a ha) (hvalid b hb) heq,
      lt_of_le_of_ne hid hneq⟩

/-- C6: a syntactically well-shaped but calendar-invalid timestamp in any
regular file's name aborts the whole load: no migrations are returned,
however well-formed the other files are. -/
theorem C6_invalid_timestamp_aborts (dir : List DirEntry) (e : DirEntry)
    (d nm : String) (he : e ∈ dir) (hdir : e.isDir = false)
    (hpat : matchMigrationPattern e.name = some (d, nm))
    (hparse : parseTimestamp d = none) :
    (loadMigrations dir).isOk = false := by
  rw [loadMigrations_isOk]
  exact processEntries_error_of_invalid he hdir hpat hparse

/-- A directory whose second file has month 13 in its name. -/
def badDirExample : List DirEntry :=
  [⟨"2023_01_01_10_00_00_ok.sql", false, "SELECT 1;"⟩,
   ⟨"2023_13_01_10_00_00_bad.sql", false, "SELECT 2;"⟩]

/-- Witness for C6 at a concrete directory: the well-formed
`2023_01_01_10_00_00_ok.sql` does not save the load from the invalid month
of `2023_13_01_10_00_00_bad.sql`. -/
theorem C6_invalid_timestamp_aborts_witness :
    ((⟨"2023_13_01_10_00_00_bad.sql", false, "SELECT 2;"⟩ : DirEntry) ∈ badDirExample ∧
      matchMigrationPattern "2023_13_01_10_00_00_bad.sql" =
        some ("2023_13_01_10_00_00", "bad") ∧
      parseTimestamp "2023_13_01_10_00_00" = none) ∧
    (loadMigrations badDirExample).isOk = false :=
  ⟨⟨by decide, by decide, by decide⟩,
   C6_invalid_timestamp_aborts badDirExample
     ⟨"2023_13_01_10_00_00_bad.sql", false, "SELECT 2;"⟩ "2023_13_01_10_00_00" "bad"
     (by decide) rfl (by decide) (by decide)⟩

/-- C10: on any successful load from a directory listing (whose entry names
are distinct, as directory entries are), the returned ids are pairwise
distinct.  The id embeds the full filename (`filename = id ++ ".sql"`), so
an id collision would force a filename collision, which a directory cannot
contain — the "collision is a load-time error" reading of the invariant is
vacuously maintained because a collision can never be discovered. -/
theorem C10_ids_nodup (dir : List DirEntry) (ms : List Migration)
    (hN : (dir.map DirEntry.name).Nodup)
    (h : loadMigrations dir = Except.ok ms) :
    (ms.map Migration.ID).Nodup :=
  load_ids_nodup hN h

/-- The three-file example directory of the specification, plus a stray
documentation file. -/
def dirExample : List DirEntry :=
  [⟨"2023_01_02_10_00_00_add_email.sql", false, "ALTER TABLE users ADD COLUMN email TEXT;"⟩,
   ⟨"2023_01_01_10_00_00_create_users.sql", false, "CREATE TABLE users (id SERIAL PRIMARY KEY, name TEXT);"⟩,
   ⟨"notes.txt", false, "readme"⟩,
   ⟨"2023_01_03_10_00_00_disable_tx.sql", false, "-- disable-tx\nCREATE INDEX idx_users_email ON users(email);"⟩]

/-- What `loadMigrations` returns on `dirExample`. -/
def msExample : List Migration :=
  [⟨"2023_01_01_10_00_00_create_users", "create_users", "2023_01_01_10_00_00_create_users.sql",
    "CREATE TABLE users (id SERIAL PRIMARY KEY, name TEXT);", false, ⟨2023, 1, 1, 10, 0, 0⟩⟩,
   ⟨"2023_01_02_10_00_00_add_email", "add_email", "2023_01_02_10_00_00_add_email.sql",
    "ALTER TABLE users ADD COLUMN email TEXT;", false, ⟨2023, 1, 2, 10, 0, 0⟩⟩,
   ⟨"2023_01_03_10_00_00_disable_tx", "disable_tx", "2023_01_03_10_00_00_disable_tx.sql",
    "-- disable-tx\nCREATE INDEX idx_users_email ON users(email);", true, ⟨2023, 1, 3, 10, 0, 0⟩⟩]

/-- Witness for C10 at a concrete directory. -/
theorem C10_ids_nodup_witness :
    ((dirExample.map DirEntry.name).Nodup ∧
      loadMigrations dirExample = Except.ok msExample) ∧
    (msExample.map Migration.ID).Nodup :=
  ⟨⟨by decide, rfl⟩, C10_ids_nodup dirExample msExample (by decide) rfl⟩

/-- C7: a directory entry contributes a loaded migration exactly when it is
a regular file whose name matches the pattern (with the fixed `.sql`
extension of the tool), and non-matching entries are transparent: deleting
them from the listing changes neither the result nor the error behaviour of
the load. -/
theorem C7_pattern_filter :
    (∀ (dir : List DirEntry) (ms : List Migration),
        (dir.map DirEntry.name).Nodup → loadMigrations dir = Except.ok ms →
        ∀ e ∈ dir,
          (e.name ∈ ms.map Migration.Filename ↔
            (e.isDir = false ∧ (matchMigrationPattern e.name).isSome = true))) ∧
    (∀ dir : List DirEntry,
        loadMigrations
            (dir.filter (fun e => !e.isDir && (matchMigrationPattern e.name).isSome)) =
          loadMigrations dir) := by
  constructor
  · intro dir ms hN h e he
    obtain ⟨l, hl, hms⟩ := loadMigrations_ok_iff.mp h
    subst hms
    have hperm := perm_sortMigrations l
    constructor
    · intro hmem
      rw [List.mem_map] at hmem
      obtain ⟨m, hm, hfn⟩ := hmem
      have hm' : m ∈ l := (hperm.mem_iff).mp hm
      obtain ⟨e', he', hdir', d, nm, t, hpat, hparse, hmk⟩ := processEntries_sound hl m hm'
      subst hmk
      have hee : e = e' := List.inj_on_of_nodup_map hN he he' hfn.symm
      subst hee
      exact ⟨hdir', by rw [hpat]; rfl⟩
    · rintro ⟨hdir, hsome⟩
      obtain ⟨⟨d, nm⟩, hpat⟩ := Option.isSome_iff_exists.mp hsome
      obtain ⟨t, hparse, hmem⟩ := processEntries_complete hl e he hdir d nm hpat
      exact List.mem_map.mpr ⟨mkMigration e d nm t, (hperm.mem_iff).mpr hmem, rfl⟩
  · intro dir
    unfold loadMigrations
    rw [processEntries_filter_eq]

/-- Witness for C7 at a concrete directory: `notes.txt` does not match the
pattern and is indeed absent from the loaded filenames. -/
theorem C7_pattern_filter_witness :
    ((dirExample.map DirEntry.name).Nodup ∧
      loadMigrations dirExample = Except.ok msExample ∧
      (⟨"notes.txt", false, "readme"⟩ : DirEntry) ∈ dirExample) ∧
    (("notes.txt" : String) ∈ msExample.map Migration.Filename ↔
      ((false : Bool) = false ∧ (matchMigrationPattern "notes.txt").isSome = true)) :=
  ⟨⟨by decide, rfl, by decide⟩,
   C7_pattern_filter.1 dirExample msExample (by decide) rfl
     ⟨"notes.txt", false, "readme"⟩ (by decide)⟩

/-- C2: on the loaded snapshot and the cached applied snapshot, the pending
computation returns exactly the order-preserving subsequence of the loaded
list whose ids are absent from the applied versions; the loaded list (and
hence the pending list) is strictly ascending by (timestamp, id); and the
computation is a pure function of the two snapshots — the database state is
not consulted. -/
theorem C2_pending_characterization
    (applied : List MigrationVersion) (dir : List DirEntry) (ms : List Migration)
    (hN : (dir.map DirEntry.name).Nodup)
    (hload : loadMigrations dir = Except.ok ms) :
    List.Sublist (getPendingMigrations ms applied) ms ∧
    (∀ m, m ∈ getPendingMigrations ms applied ↔
        (m ∈ ms ∧ ∀ a ∈ applied, a.Version ≠ m.ID)) ∧
    List.Pairwise migStrictBefore ms ∧
    List.Pairwise migStrictBefore (getPendingMigrations ms applied) ∧
    (∀ db₁ db₂ : DBState,
        executorPending ⟨ms, applied, db₁⟩ = executorPending ⟨ms, applied, db₂⟩) := by
  have hsorted := load_sorted_strict hN hload
  refine ⟨List.filter_sublist ms, ?_, hsorted, ?_, fun db₁ db₂ => rfl⟩
  · intro m
    simp [getPendingMigrations, List.mem_filter, List.any_eq_true, beq_iff_eq]
  · exact hsorted.sublist (List.filter_sublist ms)

/-- Witness for C2 at a concrete snapshot pair: with `create_users` and
`disable_tx` already applied, pending is exactly the middle migration. -/
theorem C2_pending_characterization_witness :
    ((dirExample.map DirEntry.name).Nodup ∧
      loadMigrations dirExample = Except.ok msExample) ∧
    (List.Sublist
        (getPendingMigrations msExample
          [⟨1, "2023_01_01_10_00_00_create_users", 0⟩,
           ⟨2, "2023_01_03_10_00_00_disable_tx", 1⟩]) msExample ∧
      (∀ m, m ∈ getPendingMigrations msExample
            [⟨1, "2023_01_01_10_00_00_create_users", 0⟩,
             ⟨2, "2023_01_03_10_00_00_disable_tx", 1⟩] ↔
          (m ∈ msExample ∧
            ∀ a ∈ ([⟨1, "2023_01_01_10_00_00_create_users", 0⟩,
                    ⟨2, "2023_01_03_10_00_00_disable_tx", 1⟩] :
                List MigrationVersion), a.Version ≠ m.ID)) ∧
      List.Pairwise migStrictBefore msExample ∧
      List.Pairwise migStrictBefore
        (getPendingMigrations msExample
          [⟨1, "2023_01_01_10_00_00_create_users", 0⟩,
           ⟨2, "2023_01_03_10_00_00_disable_tx", 1⟩]) ∧
      (∀ db₁ db₂ : DBState,
          executorPending
              ⟨msExample,
               [⟨1, "2023_01_01_10_00_00_create_users", 0⟩,
                ⟨2, "2023_01_03_10_00_00_disable_tx", 1⟩], db₁⟩ =
            executorPending
              ⟨msExample,
               [⟨1, "2023_01_01_10_00_00_create_users", 0⟩,
                ⟨2, "2023_01_03_10_00_00_disable_tx", 1⟩], db₂⟩)) :=
  ⟨⟨by decide, rfl⟩,
   C2_pending_characterization
     [⟨1, "2023_01_01_10_00_00_create_users", 0⟩,
      ⟨2, "2023_01_03_10_00_00_disable_tx", 1⟩]
     dirExample msExample (by decide) rfl⟩

/-! ### Facts about migration-file creation -/

theorem digitChar_isDigit (n : Nat) : (digitChar n).isDigit = true := by
  unfold digitChar
  have h : n % 10 < 10 := Nat.mod_lt _ (by omega)
  generalize n % 10 = k at h ⊢
  interval_cases k <;> decide

theorem digitChar_toNat (n : Nat) : (digitChar n).toNat = 48 + n % 10 := by
  unfold digitChar
  have h : n % 10 < 10 := Nat.mod_lt _ (by omega)
  generalize n % 10 = k at h ⊢
  interval_cases k <;> decide

/-- The filename timestamp component, character by character. -/
theorem formatTimestamp_data (t : Timestamp) :
    (formatTimestamp t).data =
      [digitChar (t.year / 1000), digitChar (t.year / 100), digitChar (t.year / 10),
       digitChar t.year, '_', digitChar (t.month / 10), digitChar t.month, '_',
       digitChar (t.day / 10), digitChar t.day, '_', digitChar (t.hour / 10),
       digitChar t.hour, '_', digitChar (t.minute / 10), digitChar t.minute, '_',
       digitChar (t.second / 10), digitChar t.second] := rfl

/-- The generated timestamp component has the pattern's 19-character shape. -/
theorem formatTimestamp_shape (t : Timestamp) :
    datePartShape (formatTimestamp t).data = true := by
  rw [formatTimestamp_data]
  simp [datePartShape, digitChar_isDigit]

theorem digitsToNat_format4 {n : Nat} (h : n ≤ 9999) :
    digitsToNat [digitChar (n / 1000), digitChar (n / 100), digitChar (n / 10), digitChar n] = n := by
  simp only [digitsToNat, List.foldl, digitChar_toNat]
  omega

theorem digitsToNat_format2 {n : Nat} (h : n ≤ 99) :
    digitsToNat [digitChar (n / 10), digitChar n] = n := by
  simp only [digitsToNat, List.foldl, digitChar_toNat]
  omega

/-- Formatting a range-checked clock reading and parsing it back is the
identity: the file created by `CreateMigrationFile` carries the creation
instant. -/
theorem parse_format_roundtrip {t : Timestamp} (hv : validTimestamp t = true) :
    parseTimestamp (formatTimestamp t) = some t := by
  have hd31 : daysInMonth t.year t.month ≤ 31 := by
    unfold daysInMonth; split_ifs <;> omega
  simp only [validTimestamp, Bool.and_eq_true, decide_eq_true_eq] at hv
  obtain ⟨⟨⟨⟨⟨⟨⟨h1, h2⟩, h3⟩, h4⟩, h5⟩, h6⟩, h7⟩, h8⟩ := hv
  simp only [parseTimestamp, formatTimestamp_data]
  rw [digitsToNat_format4 h8, digitsToNat_format2 (by omega),
    digitsToNat_format2 (by omega), digitsToNat_format2 (by omega),
    digitsToNat_format2 (by omega), digitsToNat_format2 (by omega)]
  have hvt : validTimestamp ⟨t.year, t.month, t.day, t.hour, t.minute, t.second⟩ = true := by
    simp only [validTimestamp, Bool.and_eq_true, decide_eq_true_eq]
    exact ⟨⟨⟨⟨⟨⟨⟨h1, h2⟩, h3⟩, h4⟩, h5⟩, h6⟩, h7⟩, h8⟩
  rw [hvt]
  simp

/-- Every character surviving the sanitization is in `[a-zA-Z0-9_]`. -/
theorem sanitizeName_all (name : String) :
    (sanitizeName name).data.all isNameChar = true := by
  rw [List.all_eq_true]
  intro c hc
  exact List.of_mem_filter hc

/-- Substring search is stable under prepending: a needle found in `l` is
found in `a ++ l`. -/
theorem listContainsSub_append_left (a l pat : List Char)
    (h : listContainsSub l pat = true) : listContainsSub (a ++ l) pat = true := by
  unfold listContainsSub at h ⊢
  rw [List.any_eq_true] at h ⊢
  obtain ⟨i, hi, hp⟩ := h
  rw [List.mem_range] at hi
  refine ⟨a.length + i, ?_, ?_⟩
  · rw [List.mem_range, List.length_append]
    omega
  · rw [List.drop_append]
    exact hp

/-- The placeholder template always carries the directive token (inside its
documentation line), whatever the interpolated name and time are. -/
theorem template_contains_token (s d : String) :
    containsSub (migrationTemplate s d) disableTxToken = true := by
  unfold containsSub migrationTemplate
  rw [String.data_append]
  exact listContainsSub_append_left _ _ _ (by decide)

/-- Characterization of a successful creation: the returned filename stamps
the clock and the sanitized name, the new listing appends the templated
file, and no existing entry bore that name. -/
theorem create_ok_spec {dir : List DirEntry} {name : String} {now : Timestamp}
    {fn : String} {dir' : List DirEntry}
    (h : createMigrationFile dir name now = Except.ok (fn, dir')) :
    fn = formatTimestamp now ++ "_" ++ sanitizeName name ++ ".sql" ∧
    dir' = dir ++
      [⟨fn, false, migrationTemplate (sanitizeName name) (formatDisplayTime now)⟩] ∧
    ∀ e ∈ dir, e.name ≠ fn := by
  simp only [createMigrationFile] at h
  split at h
  · exact Except.noConfusion h
  · rename_i hex
    injection h with h
    rw [Prod.mk.injEq] at h
    obtain ⟨hfn, hdir⟩ := h
    subst hfn
    refine ⟨rfl, hdir.symm, ?_⟩
    intro e he heq
    rw [List.any_eq_true] at hex
    exact hex ⟨e, he, beq_iff_eq.mpr heq⟩

/-- Creation fails with `alreadyExists` exactly when the target filename is
taken. -/
theorem create_exists_spec {dir : List DirEntry} {name : String} {now : Timestamp}
    (h : ∃ e ∈ dir, e.name = formatTimestamp now ++ "_" ++ sanitizeName name ++ ".sql") :
    createMigrationFile dir name now =
      Except.error (CreateErr.alreadyExists
        (formatTimestamp now ++ "_" ++ sanitizeName name ++ ".sql")) := by
  simp only [createMigrationFile]
  rw [if_pos]
  rw [List.any_eq_true]
  obtain ⟨e, he, hn⟩ := h
  exact ⟨e, he, beq_iff_eq.mpr hn⟩

/-- The filename generated by creation matches the loading pattern, with
the timestamp component and the sanitized name as capture groups — provided
the sanitized name is nonempty. -/
theorem matchPattern_created (name : String) (now : Timestamp)
    (hnm : sanitizeName name ≠ "") :
    matchMigrationPattern (formatTimestamp now ++ "_" ++ sanitizeName name ++ ".sql") =
      some (formatTimestamp now, sanitizeName name) := by
  have hdata : (formatTimestamp now ++ "_" ++ sanitizeName name ++ ".sql").data =
      (formatTimestamp now).data ++ '_' :: ((sanitizeName name).data ++ sqlSuffix) := by
    simp [String.data_append, sqlSuffix, show ("_" : String).data = ['_'] from rfl,
      show (".sql" : String).data = ['.', 's', 'q', 'l'] from rfl]
  have hne : (sanitizeName name).data ≠ [] := by
    intro hd
    exact hnm (String.ext (hd.trans rfl))
  have h := matchPattern_mk hdata (formatTimestamp_shape now) hne (sanitizeName_all name)
  simpa using h

/-- The loading loop on the singleton listing holding a freshly created
file (with nonempty sanitized name): the file is discovered, its stamp
parses back to the creation instant, and the directive search runs on the
template body. -/
theorem processEntries_created (name : String) (now : Timestamp) (fn : String)
    (hv : validTimestamp now = true) (hnm : sanitizeName name ≠ "")
    (hfn : fn = formatTimestamp now ++ "_" ++ sanitizeName name ++ ".sql") :
    processEntries
        [⟨fn, false, migrationTemplate (sanitizeName name) (formatDisplayTime now)⟩] =
      Except.ok [mkMigration
        ⟨fn, false, migrationTemplate (sanitizeName name) (formatDisplayTime now)⟩
        (formatTimestamp now) (sanitizeName name) now] := by
  subst hfn
  have hpat := matchPattern_created name now hnm
  simp only [processEntries, matchPattern_suffix hpat, hpat,
    parse_format_roundtrip hv, Bool.not_true, Bool.or_false, Bool.false_or,
    ite_false, Except.map]
  simp

/-- C8 (amended): when the sanitized name is nonempty and the prior listing
loads successfully, creating and re-loading yields exactly one new
migration — the created file, carrying the sanitized name and the templated
placeholder body — while every other loaded migration is one of the prior
ones; the sanitized name stays inside `[a-zA-Z0-9_]`; and creation against
a listing already holding the exact target filename fails with
`alreadyExists`. -/
theorem C8_create_load_roundtrip
    (dir : List DirEntry) (rawName : String) (now : Timestamp)
    (ms : List Migration) (fn : String) (dir' : List DirEntry)
    (hv : validTimestamp now = true)
    (hnm : sanitizeName rawName ≠ "")
    (hcr : createMigrationFile dir rawName now = Except.ok (fn, dir'))
    (hload : loadMigrations dir = Except.ok ms) :
    (∃ ms', loadMigrations dir' = Except.ok ms' ∧
        ms'.length = ms.length + 1 ∧
        (∃ m ∈ ms', m.Filename = fn ∧ m.Name = sanitizeName rawName ∧
          m.Content = migrationTemplate (sanitizeName rawName) (formatDisplayTime now) ∧
          containsSub m.Content disableTxToken = true) ∧
        (∀ m ∈ ms', m.Filename ≠ fn → m ∈ ms)) ∧
    (∀ c ∈ (sanitizeName rawName).data, isNameChar c = true) ∧
    (∀ dir₂ : List DirEntry, (∃ e ∈ dir₂, e.name = fn) →
        createMigrationFile dir₂ rawName now =
          Except.error (CreateErr.alreadyExists fn)) := by
  obtain ⟨hfn, hdir', hnotin⟩ := create_ok_spec hcr
  obtain ⟨l, hl, hms⟩ := loadMigrations_ok_iff.mp hload
  have hsingle := processEntries_created rawName now fn hv hnm hfn
  have happend : processEntries dir' =
      Except.ok (l ++ [mkMigration
        ⟨fn, false, migrationTemplate (sanitizeName rawName) (formatDisplayTime now)⟩
        (formatTimestamp now) (sanitizeName rawName) now]) := by
    rw [hdir', processEntries_append, hl, hsingle]
    rfl
  have hload' : loadMigrations dir' =
      Except.ok (sortMigrations (l ++ [mkMigration
        ⟨fn, false, migrationTemplate (sanitizeName rawName) (formatDisplayTime now)⟩
        (formatTimestamp now) (sanitizeName rawName) now])) := by
    unfold loadMigrations
    rw [happend]
    rfl
  have hperm' := perm_sortMigrations (l ++ [mkMigration
    ⟨fn, false, migrationTemplate (sanitizeName rawName) (formatDisplayTime now)⟩
    (formatTimestamp now) (sanitizeName rawName) now])
  have hperm := perm_sortMigrations l
  refine ⟨⟨_, hload', ?_, ?_, ?_⟩, ?_, ?_⟩
  · rw [hperm'.length_eq, List.length_append, hms, hperm.length_eq]
    simp
  · refine ⟨mkMigration
      ⟨fn, false, migrationTemplate (sanitizeName rawName) (formatDisplayTime now)⟩
      (formatTimestamp now) (sanitizeName rawName) now,
      (hperm'.mem_iff).mpr (by simp), rfl, rfl, rfl, template_contains_token _ _⟩
  · intro m hm hfn'
    have hm' := (hperm'.mem_iff).mp hm
    rcases List.mem_append.mp hm' with hml | hmn
    · rw [hms]
      exact (hperm.mem_iff).mpr hml
    · exfalso
      have hmeq : m = mkMigration
          ⟨fn, false, migrationTemplate (sanitizeName rawName) (formatDisplayTime now)⟩
          (formatTimestamp now) (sanitizeName rawName) now := by simpa using hmn
      subst hmeq
      exact hfn' rfl
  · intro c hc
    exact List.all_eq_true.mp (sanitizeName_all rawName) c hc
  · intro dir₂ hex
    rw [hfn] at hex ⊢
    exact create_exists_spec hex

/-- Counterexample to C8 as stated: for the raw name `"!!!"` (sanitized to
the empty string) creation succeeds, yet re-loading yields zero new
migrations rather than exactly one — the created file
`2025_10_11_12_00_00_.sql` does not match the loading pattern, whose name
segment requires at least one character. -/
theorem C8_counterexample :
    createMigrationFile [] "!!!" ⟨2025, 10, 11, 12, 0, 0⟩ =
        Except.ok ("2025_10_11_12_00_00_.sql",
          [⟨"2025_10_11_12_00_00_.sql", false,
            migrationTemplate "" "2025-10-11 12:00:00"⟩]) ∧
    loadMigrations ([] : List DirEntry) = Except.ok [] ∧
    loadMigrations
        [⟨"2025_10_11_12_00_00_.sql", false, migrationTemplate "" "2025-10-11 12:00:00"⟩] =
      Except.ok [] :=
  ⟨rfl, rfl, rfl⟩

/-- Witness for the amended C8 at a concrete creation: raw name
`"Add Users Table!"` in an empty directory. -/
theorem C8_create_load_roundtrip_witness :
    (validTimestamp ⟨2025, 10, 11, 12, 0, 0⟩ = true ∧
      sanitizeName "Add Users Table!" ≠ "" ∧
      createMigrationFile [] "Add Users Table!" ⟨2025, 10, 11, 12, 0, 0⟩ =
        Except.ok ("2025_10_11_12_00_00_Add_Users_Table.sql",
          [⟨"2025_10_11_12_00_00_Add_Users_Table.sql", false,
            migrationTemplate "Add_Users_Table" "2025-10-11 12:00:00"⟩]) ∧
      loadMigrations ([] : List DirEntry) = Except.ok []) ∧
    ((∃ ms', loadMigrations
          [⟨"2025_10_11_12_00_00_Add_Users_Table.sql", false,
            migrationTemplate "Add_Users_Table" "2025-10-11 12:00:00"⟩] =
            Except.ok ms' ∧
        ms'.length = ([] : List Migration).length + 1 ∧
        (∃ m ∈ ms', m.Filename = "2025_10_11_12_00_00_Add_Users_Table.sql" ∧
          m.Name = sanitizeName "Add Users Table!" ∧
          m.Content = migrationTemplate (sanitizeName "Add Users Table!")
            (formatDisplayTime ⟨2025, 10, 11, 12, 0, 0⟩) ∧
          containsSub m.Content disableTxToken = true) ∧
        (∀ m ∈ ms', m.Filename ≠ "2025_10_11_12_00_00_Add_Users_Table.sql" →
          m ∈ ([] : List Migration))) ∧
      (∀ c ∈ (sanitizeName "Add Users Table!").data, isNameChar c = true) ∧
      (∀ dir₂ : List DirEntry,
          (∃ e ∈ dir₂, e.name = "2025_10_11_12_00_00_Add_Users_Table.sql") →
          createMigrationFile dir₂ "Add Users Table!" ⟨2025, 10, 11, 12, 0, 0⟩ =
            Except.error (CreateErr.alreadyExists
              "2025_10_11_12_00_00_Add_Users_Table.sql"))) :=
  ⟨⟨by decide, by decide, rfl, rfl⟩,
   C8_create_load_roundtrip [] "Add Users Table!" ⟨2025, 10, 11, 12, 0, 0⟩ []
     "2025_10_11_12_00_00_Add_Users_Table.sql"
     [⟨"2025_10_11_12_00_00_Add_Users_Table.sql", false,
       migrationTemplate "Add_Users_Table" "2025-10-11 12:00:00"⟩]
     (by decide) (by decide) rfl rfl⟩

/-- C3 (amended): whenever creation succeeds with a nonempty sanitized name
and the subsequent load succeeds, the loaded set contains the created file,
and its transactional wrapping is disabled — the template's documentation
comment contains the literal directive token, and loading detects the
directive by substring search anywhere in the content. -/
theorem C3_created_file_disable_tx
    (dir : List DirEntry) (rawName : String) (now : Timestamp)
    (fn : String) (dir' : List DirEntry) (ms' : List Migration)
    (hnm : sanitizeName rawName ≠ "")
    (hcr : createMigrationFile dir rawName now = Except.ok (fn, dir'))
    (hload : loadMigrations dir' = Except.ok ms') :
    ∃ m ∈ ms', m.Filename = fn ∧ m.DisableTx = true ∧
      containsSub m.Content disableTxToken = true := by
  obtain ⟨hfn, hdir', hnotin⟩ := create_ok_spec hcr
  obtain ⟨l, hl, hms⟩ := loadMigrations_ok_iff.mp hload
  have hpat : matchMigrationPattern fn =
      some (formatTimestamp now, sanitizeName rawName) := by
    rw [hfn]
    exact matchPattern_created rawName now hnm
  have hmem : (⟨fn, false,
      migrationTemplate (sanitizeName rawName) (formatDisplayTime now)⟩ : DirEntry) ∈ dir' := by
    rw [hdir']
    simp
  obtain ⟨t, hparse, hin⟩ := processEntries_complete hl _ hmem rfl _ _ hpat
  refine ⟨mkMigration
      ⟨fn, false, migrationTemplate (sanitizeName rawName) (formatDisplayTime now)⟩
      (formatTimestamp now) (sanitizeName rawName) t,
    ?_, rfl, template_contains_token _ _, template_contains_token _ _⟩
  rw [hms]
  exact ((perm_sortMigrations l).mem_iff).mpr hin

/-- Counterexample to C3 as stated: for the raw name `"???"` (sanitized to
the empty string) creation succeeds, yet the subsequent load returns no
migration at all for the created file — quantifying over every name for
which creation succeeds is too strong. -/
theorem C3_counterexample :
    createMigrationFile [] "???" ⟨2025, 10, 11, 13, 0, 0⟩ =
        Except.ok ("2025_10_11_13_00_00_.sql",
          [⟨"2025_10_11_13_00_00_.sql", false,
            migrationTemplate "" "2025-10-11 13:00:00"⟩]) ∧
    loadMigrations
        [⟨"2025_10_11_13_00_00_.sql", false, migrationTemplate "" "2025-10-11 13:00:00"⟩] =
      Except.ok [] :=
  ⟨rfl, rfl⟩

set_option maxRecDepth 8192 in
/-- Witness for the amended C3 at the concrete creation of
`add users index` in an empty directory. -/
theorem C3_created_file_disable_tx_witness :
    (sanitizeName "add users index" ≠ "" ∧
      createMigrationFile [] "add users index" ⟨2025, 10, 11, 14, 0, 0⟩ =
        Except.ok ("2025_10_11_14_00_00_add_users_index.sql",
          [⟨"2025_10_11_14_00_00_add_users_index.sql", false,
            migrationTemplate "add_users_index" "2025-10-11 14:00:00"⟩]) ∧
      loadMigrations
          [⟨"2025_10_11_14_00_00_add_users_index.sql", false,
            migrationTemplate "add_users_index" "2025-10-11 14:00:00"⟩] =
        Except.ok
          [⟨"2025_10_11_14_00_00_add_users_index", "add_users_index",
            "2025_10_11_14_00_00_add_users_index.sql",
            migrationTemplate "add_users_index" "2025-10-11 14:00:00", true,
            ⟨2025, 10, 11, 14, 0, 0⟩⟩]) ∧
    (∃ m ∈ [(⟨"2025_10_11_14_00_00_add_users_index", "add_users_index",
            "2025_10_11_14_00_00_add_users_index.sql",
            migrationTemplate "add_users_index" "2025-10-11 14:00:00", true,
            ⟨2025, 10, 11, 14, 0, 0⟩⟩ : Migration)],
        m.Filename = "2025_10_11_14_00_00_add_users_index.sql" ∧
        m.DisableTx = true ∧ containsSub m.Content disableTxToken = true) :=
  ⟨⟨by decide, rfl, rfl⟩,
   C3_created_file_disable_tx [] "add users index" ⟨2025, 10, 11, 14, 0, 0⟩
     "2025_10_11_14_00_00_add_users_index.sql"
     [⟨"2025_10_11_14_00_00_add_users_index.sql", false,
       migrationTemplate "add_users_index" "2025-10-11 14:00:00"⟩]
     [⟨"2025_10_11_14_00_00_add_users_index", "add_users_index",
       "2025_10_11_14_00_00_add_users_index.sql",
       migrationTemplate "add_users_index" "2025-10-11 14:00:00", true,
       ⟨2025, 10, 11, 14, 0, 0⟩⟩]
     (by decide) rfl rfl⟩

/-! ### Facts about the execution engine -/

theorem any_version_eq_false {l : List MigrationVersion} {id : String}
    (h : ∀ v ∈ l, v.Version ≠ id) :
    (l.any (fun v => v.Version == id)) = false := by
  rw [List.any_eq_false]
  intro v hv
  simpa using h v hv

/-- The database state after one fully successful migration: the statement
batch ran, and one row was appended to each bookkeeping table. -/
def dbSucc (db : DBState) (m : Migration) : DBState :=
  ⟨db.executed ++ [m.Content],
   db.versions ++ [⟨db.versions.length + 1, m.ID, db.versions.length⟩],
   db.history ++ [⟨db.history.length + 1, m.ID, m.Content⟩]⟩

/-- Full evaluation of the transactional path of `ExecuteMigration` under
every failure pattern, assuming the migration is not yet recorded: any
failing step rolls the whole unit back (database unchanged), and only the
fully successful run commits the three effects together. -/
theorem executeMigration_tx_spec (o : Oracle) (db : DBState) (m : Migration)
    (hTx : m.DisableTx = false)
    (hv : (db.versions.any (fun v => v.Version == m.ID)) = false) :
    executeMigration o db m =
      if o.beginFails then (some (ExecErr.beginFailed m.ID), db)
      else if o.execFails m.Content then (some (ExecErr.execFailed m.ID), db)
      else if o.recordFails m.ID then (some ExecErr.recordFailed, db)
      else if o.historyFails m.ID then (some ExecErr.historyFailed, db)
      else if o.commitFails then (some (ExecErr.commitFailed m.ID), db)
      else (none, dbSucc db m) := by
  by_cases hb : o.beginFails = true <;>
  by_cases he : o.execFails m.Content = true <;>
  by_cases hrf : o.recordFails m.ID = true <;>
  by_cases hhf : o.historyFails m.ID = true <;>
  by_cases hc : o.commitFails = true <;>
    simp [executeMigration, hTx, recordMigration, recordHistory, versionExists,
      txInsertVersion, txInsertHistory, commitTx, dbSucc, hv, hb, he, hrf, hhf, hc]

/-- Full evaluation of the non-transactional path of `ExecuteMigration`
under every failure pattern, assuming the migration is not yet recorded:
each effect commits independently and immediately, so a later failure
leaves the earlier effects in place. -/
theorem executeMigration_notx_spec (o : Oracle) (db : DBState) (m : Migration)
    (hTx : m.DisableTx = true)
    (hv : (db.versions.any (fun v => v.Version == m.ID)) = false) :
    executeMigration o db m =
      if o.execFails m.Content then (some (ExecErr.execFailed m.ID), db)
      else if o.recordFails m.ID then (some ExecErr.recordFailed,
        ⟨db.executed ++ [m.Content], db.versions, db.history⟩)
      else if o.historyFails m.ID then (some ExecErr.historyFailed,
        ⟨db.executed ++ [m.Content],
         db.versions ++ [⟨db.versions.length + 1, m.ID, db.versions.length⟩],
         db.history⟩)
      else (none, dbSucc db m) := by
  by_cases he : o.execFails m.Content = true <;>
  by_cases hrf : o.recordFails m.ID = true <;>
  by_cases hhf : o.historyFails m.ID = true <;>
    simp [executeMigration, hTx, recordMigration, recordHistory, versionExists,
      dbInsertVersion, dbInsertHistory, dbSucc, hv, he, hrf, hhf]

/-- With the fault-free oracle, a migration whose id is not yet recorded
executes successfully on either path, producing `dbSucc`. -/
theorem executeMigration_happy (db : DBState) (m : Migration)
    (hv : (db.versions.any (fun v => v.Version == m.ID)) = false) :
    executeMigration happyOracle db m = (none, dbSucc db m) := by
  cases hTx : m.DisableTx with
  | true => rw [executeMigration_notx_spec happyOracle db m hTx hv]; rfl
  | false => rw [executeMigration_tx_spec happyOracle db m hTx hv]; rfl

/-- C1: on the transactional path, with the migration not yet recorded, any
failure of any step (begin, statement batch, applied-record write, history
write, commit) leaves the database exactly as it was — in particular no
applied record and no history record exists for the migration id — while a
successful run commits the statement effect, the applied record and the
history record together; the migration is recorded as applied exactly when
the unit committed. -/
theorem C1_transactional_atomicity
    (o : Oracle) (db : DBState) (m : Migration) (res : Option ExecErr) (db1 : DBState)
    (hTx : m.DisableTx = false)
    (hv : ∀ v ∈ db.versions, v.Version ≠ m.ID)
    (hh : ∀ h ∈ db.history, h.Version ≠ m.ID)
    (hr : executeMigration o db m = (res, db1)) :
    (res ≠ none → db1 = db ∧ (∀ v ∈ db1.versions, v.Version ≠ m.ID) ∧
      (∀ h ∈ db1.history, h.Version ≠ m.ID)) ∧
    (res = none →
      db1.executed = db.executed ++ [m.Content] ∧
      db1.versions.map MigrationVersion.Version =
        db.versions.map MigrationVersion.Version ++ [m.ID] ∧
      db1.history.map (fun h => (h.Version, h.Command)) =
        db.history.map (fun h => (h.Version, h.Command)) ++ [(m.ID, m.Content)]) ∧
    ((∃ v ∈ db1.versions, v.Version = m.ID) ↔ res = none) := by
  rw [executeMigration_tx_spec o db m hTx (any_version_eq_false hv)] at hr
  split_ifs at hr <;> injection hr with h1 h2 <;> subst h1 <;> subst h2
  all_goals
    first
    | · refine ⟨fun _ => ⟨rfl, hv, hh⟩, fun hn => absurd hn (by simp), ?_⟩
        constructor
        · rintro ⟨v, hvm, hve⟩
          exact absurd hve (hv v hvm)
        · intro hn
          exact absurd hn (by simp)
    | · refine ⟨fun hne => absurd rfl hne, fun _ => ⟨rfl, by simp [dbSucc], by simp [dbSucc]⟩, ?_⟩
        constructor
        · intro _
          rfl
        · intro _
          exact ⟨⟨db.versions.length + 1, m.ID, db.versions.length⟩, by simp [dbSucc], rfl⟩

/-- The empty database: fresh target, nothing applied. -/
def dbEmpty : DBState := ⟨[], [], []⟩

/-- A transactional example migration. -/
def migEx : Migration :=
  ⟨"2023_01_01_10_00_00_create_users", "create_users",
   "2023_01_01_10_00_00_create_users.sql",
   "CREATE TABLE users (id SERIAL PRIMARY KEY);", false, ⟨2023, 1, 1, 10, 0, 0⟩⟩

/-- A directive-disabled example migration. -/
def migExTx : Migration :=
  ⟨"2023_01_03_10_00_00_disable_tx", "disable_tx",
   "2023_01_03_10_00_00_disable_tx.sql",
   "-- disable-tx\nCREATE INDEX idx_users_email ON users(email);", true,
   ⟨2023, 1, 3, 10, 0, 0⟩⟩

/-- An oracle whose statement executions all fail. -/
def oExecFail : Oracle := ⟨false, fun _ => true, fun _ => false, fun _ => false, false, false⟩

/-- Witness for C1 at a concrete failing execution: the statement batch
fails and the empty database stays empty. -/
theorem C1_transactional_atomicity_witness :
    (migEx.DisableTx = false ∧ (∀ v ∈ dbEmpty.versions, v.Version ≠ migEx.ID) ∧
      (∀ h ∈ dbEmpty.history, h.Version ≠ migEx.ID) ∧
      executeMigration oExecFail dbEmpty migEx =
        (some (ExecErr.execFailed migEx.ID), dbEmpty)) ∧
    ((some (ExecErr.execFailed migEx.ID) ≠ (none : Option ExecErr) →
        dbEmpty = dbEmpty ∧ (∀ v ∈ dbEmpty.versions, v.Version ≠ migEx.ID) ∧
        (∀ h ∈ dbEmpty.history, h.Version ≠ migEx.ID)) ∧
      (some (ExecErr.execFailed migEx.ID) = (none : Option ExecErr) →
        dbEmpty.executed = dbEmpty.executed ++ [migEx.Content] ∧
        dbEmpty.versions.map MigrationVersion.Version =
          dbEmpty.versions.map MigrationVersion.Version ++ [migEx.ID] ∧
        dbEmpty.history.map (fun h => (h.Version, h.Command)) =
          dbEmpty.history.map (fun h => (h.Version, h.Command)) ++
            [(migEx.ID, migEx.Content)]) ∧
      ((∃ v ∈ dbEmpty.versions, v.Version = migEx.ID) ↔
        some (ExecErr.execFailed migEx.ID) = (none : Option ExecErr))) :=
  ⟨⟨rfl, by simp [dbEmpty], by simp [dbEmpty], rfl⟩,
   C1_transactional_atomicity oExecFail dbEmpty migEx
     (some (ExecErr.execFailed migEx.ID)) dbEmpty rfl
     (by simp [dbEmpty]) (by simp [dbEmpty]) rfl⟩

/-- C4: on the directive-disabled path, with the migration not yet
recorded, the engine never opens a unit of work (the result is unchanged
under an oracle whose begin and commit always fail); the statement, the
applied-record write and the history write commit independently in that
order.  In particular, when the statement succeeds but the applied-record
write fails, the call returns the record error while the schema change
persists and the migration stays absent from the applied set — and when
only the history write fails, the applied record has already committed. -/
theorem C4_non_transactional_path
    (o : Oracle) (db : DBState) (m : Migration)
    (hTx : m.DisableTx = true)
    (hv : ∀ v ∈ db.versions, v.Version ≠ m.ID) :
    (executeMigration
        ⟨true, o.execFails, o.recordFails, o.historyFails, true, o.queryFails⟩ db m =
      executeMigration o db m) ∧
    (o.execFails m.Content = true →
      executeMigration o db m = (some (ExecErr.execFailed m.ID), db)) ∧
    (o.execFails m.Content = false → o.recordFails m.ID = true →
      executeMigration o db m = (some ExecErr.recordFailed,
        ⟨db.executed ++ [m.Content], db.versions, db.history⟩) ∧
      (∀ v ∈ (executeMigration o db m).2.versions, v.Version ≠ m.ID)) ∧
    (o.execFails m.Content = false → o.recordFails m.ID = false →
      o.historyFails m.ID = true →
      executeMigration o db m = (some ExecErr.historyFailed,
        ⟨db.executed ++ [m.Content],
         db.versions ++ [⟨db.versions.length + 1, m.ID, db.versions.length⟩],
         db.history⟩)) ∧
    (o.execFails m.Content = false → o.recordFails m.ID = false →
      o.historyFails m.ID = false →
      executeMigration o db m = (none, dbSucc db m)) := by
  have hvf := any_version_eq_false hv
  have hspec := executeMigration_notx_spec o db m hTx hvf
  have hspec' := executeMigration_notx_spec
    ⟨true, o.execFails, o.recordFails, o.historyFails, true, o.queryFails⟩ db m hTx hvf
  refine ⟨by rw [hspec, hspec'], ?_, ?_, ?_, ?_⟩
  · intro he
    rw [hspec, if_pos he]
  · intro he hrf
    rw [hspec, if_neg (by simp [he]), if_pos hrf]
    exact ⟨rfl, hv⟩
  · intro he hrf hhf
    rw [hspec, if_neg (by simp [he]), if_neg (by simp [hrf]), if_pos hhf]
  · intro he hrf hhf
    rw [hspec, if_neg (by simp [he]), if_neg (by simp [hrf]), if_neg (by simp [hhf])]

/-- An oracle whose applied-record writes all fail. -/
def oRecordFail : Oracle := ⟨false, fun _ => false, fun _ => true, fun _ => false, false, false⟩

/-- Witness for C4 at a concrete run: the index statement succeeds outside
any transaction, the applied-record write fails, and the executed statement
survives while the applied set stays empty. -/
theorem C4_non_transactional_path_witness :
    (migExTx.DisableTx = true ∧ (∀ v ∈ dbEmpty.versions, v.Version ≠ migExTx.ID) ∧
      oRecordFail.execFails migExTx.Content = false ∧
      oRecordFail.recordFails migExTx.ID = true) ∧
    (executeMigration oRecordFail dbEmpty migExTx = (some ExecErr.recordFailed,
        ⟨dbEmpty.executed ++ [migExTx.Content], dbEmpty.versions, dbEmpty.history⟩) ∧
      (∀ v ∈ (executeMigration oRecordFail dbEmpty migExTx).2.versions,
        v.Version ≠ migExTx.ID)) :=
  ⟨⟨rfl, by simp [dbEmpty], rfl, rfl⟩,
   (C4_non_transactional_path oRecordFail dbEmpty migExTx rfl
     (by simp [dbEmpty])).2.2.1 rfl rfl⟩

/-- C9: when a pending migration executes and records successfully but the
subsequent full re-fetch of the applied set fails, `ExecuteNextMigration`
returns `true` together with the query error and leaves the cached applied
set untouched; a failure of the migration itself returns `false` with that
error; and in the refresh-failure case `ExecuteAllMigrations` stops at once
with a count that does not include the successfully executed migration. -/
theorem C9_execute_next_refresh_failure
    (o : Oracle) (s : ExecState) (m : Migration) (rest : List Migration)
    (hp : executorPending s = m :: rest) :
    (∀ db1 : DBState, executeMigration o s.db m = (none, db1) → o.queryFails = true →
      executeNextMigration o s =
        (true, some ExecErr.queryFailed, ⟨s.migrations, s.applied, db1⟩) ∧
      (∀ fuel : Nat, executeAllMigrations o (fuel + 1) s =
        some ((0, some ExecErr.queryFailed), ⟨s.migrations, s.applied, db1⟩))) ∧
    (∀ (e : ExecErr) (db1 : DBState), executeMigration o s.db m = (some e, db1) →
      executeNextMigration o s = (false, some e, ⟨s.migrations, s.applied, db1⟩)) := by
  constructor
  · intro db1 hexec hq
    have hnext : executeNextMigration o s =
        (true, some ExecErr.queryFailed, ⟨s.migrations, s.applied, db1⟩) := by
      simp only [executeNextMigration, hp, hexec, getAppliedMigrations, hq, ite_true]
    refine ⟨hnext, fun fuel => ?_⟩
    unfold executeAllMigrations
    simp only [executeAllLoop, hnext]
  · intro e db1 hexec
    simp only [executeNextMigration, hp, hexec]

/-- An oracle whose applied-set queries fail. -/
def oQueryFail : Oracle := ⟨false, fun _ => false, fun _ => false, fun _ => false, false, true⟩

/-- Witness for C9 at a concrete engine: the single pending migration
executes and records, the re-fetch fails, the call returns `(true, error)`
with the stale empty cache, and the batch run reports zero. -/
theorem C9_execute_next_refresh_failure_witness :
    (executorPending ⟨[migEx], [], dbEmpty⟩ = [migEx] ∧
      executeMigration oQueryFail dbEmpty migEx = (none, dbSucc dbEmpty migEx) ∧
      oQueryFail.queryFails = true) ∧
    (executeNextMigration oQueryFail ⟨[migEx], [], dbEmpty⟩ =
        (true, some ExecErr.queryFailed, ⟨[migEx], [], dbSucc dbEmpty migEx⟩) ∧
      (∀ fuel : Nat, executeAllMigrations oQueryFail (fuel + 1) ⟨[migEx], [], dbEmpty⟩ =
        some ((0, some ExecErr.queryFailed), ⟨[migEx], [], dbSucc dbEmpty migEx⟩))) :=
  ⟨⟨rfl, rfl, rfl⟩,
   (C9_execute_next_refresh_failure oQueryFail ⟨[migEx], [], dbEmpty⟩ migEx [] rfl).1
     (dbSucc dbEmpty migEx) rfl rfl⟩

/-- Appending one applied record refines the pending set by one more id
exclusion. -/
theorem getPending_append_one (all : List Migration)
    (ap : List MigrationVersion) (v : MigrationVersion) :
    getPendingMigrations all (ap ++ [v]) =
      (getPendingMigrations all ap).filter (fun x => !(v.Version == x.ID)) := by
  unfold getPendingMigrations
  rw [List.filter_filter]
  apply List.filter_congr
  intro x _
  simp [List.any_append, Bool.not_or, Bool.and_comm]

/-- A larger iteration budget never changes a loop run that returned. -/
theorem executeAllLoop_mono (o : Oracle) :
    ∀ (fuel fuel' c : Nat) (s : ExecState) (r : (Nat × Option ExecErr) × ExecState),
      executeAllLoop o fuel c s = some r → fuel ≤ fuel' →
      executeAllLoop o fuel' c s = some r := by
  intro fuel
  induction fuel with
  | zero => intro fuel' c s r h; exact absurd h (by simp [executeAllLoop])
  | succ fuel ih =>
    intro fuel' c s r h hle
    obtain ⟨fuel'', rfl⟩ : ∃ k, fuel' = k + 1 := by
      cases fuel' with
      | zero => omega
      | succ k => exact ⟨k, rfl⟩
    simp only [executeAllLoop] at h ⊢
    rcases hnext : executeNextMigration o s with ⟨b, err, s1⟩
    rw [hnext] at h
    cases err with
    | some e => cases b <;> simpa using h
    | none =>
      cases b with
      | false => simpa using h
      | true =>
        simp only at h ⊢
        exact ih fuel'' (c + 1) s1 r h (by omega)

/-- One successful iteration of the batch loop consumes one unit of budget
and increments the count. -/
theorem executeAllLoop_step_ok (o : Oracle) (fuel c : Nat) (s s1 : ExecState)
    (h : executeNextMigration o s = (true, none, s1)) :
    executeAllLoop o (fuel + 1) c s = executeAllLoop o fuel (c + 1) s1 := by
  simp only [executeAllLoop, h]

/-- Any erroring iteration stops the batch loop at once with the current
count and that error. -/
theorem executeAllLoop_step_err (o : Oracle) (fuel c : Nat) (s s1 : ExecState)
    (b : Bool) (e : ExecErr)
    (h : executeNextMigration o s = (b, some e, s1)) :
    executeAllLoop o (fuel + 1) c s = some ((c, some e), s1) := by
  cases b <;> simp only [executeAllLoop, h]

/-- Induction core for the happy batch run: with the cache synchronized to
the store and the pending list's ids distinct, the loop executes exactly
the pending list, one per iteration, then stops. -/
theorem executeAll_happy_aux (p : List Migration) :
    ∀ (s : ExecState) (c : Nat),
      s.applied = s.db.versions →
      executorPending s = p →
      (p.map Migration.ID).Nodup →
      ∃ s1 : ExecState,
        executeAllLoop happyOracle (p.length + 1) c s = some ((c + p.length, none), s1) ∧
        executorPending s1 = [] ∧ s1.applied = s1.db.versions ∧
        s1.migrations = s.migrations := by
  induction p with
  | nil =>
    intro s c hsync hpend _
    refine ⟨s, ?_, hpend, hsync, rfl⟩
    simp only [executeAllLoop, executeNextMigration, hpend]
    simp
  | cons m rest ih =>
    intro s c hsync hpend hnd
    rw [List.map_cons] at hnd
    have hnotmem := (List.nodup_cons.mp hnd).1
    have hndrest := (List.nodup_cons.mp hnd).2
    have hmem : m ∈ executorPending s := by
      rw [hpend]; exact List.mem_cons_self _ _
    have hnotin : (s.db.versions.any (fun v => v.Version == m.ID)) = false := by
      unfold executorPending getPendingMigrations at hmem
      have hf := List.of_mem_filter hmem
      rw [hsync] at hf
      simpa using hf
    have hexec := executeMigration_happy s.db m hnotin
    have hq : happyOracle.queryFails = false := rfl
    have hnext : executeNextMigration happyOracle s =
        (true, none, ⟨s.migrations, (dbSucc s.db m).versions, dbSucc s.db m⟩) := by
      simp only [executeNextMigration, hpend, hexec, getAppliedMigrations, hq,
        Bool.false_eq_true, if_false]
    have hpend0 : getPendingMigrations s.migrations s.db.versions = m :: rest := by
      rw [← hsync]; exact hpend
    have hpend1 : executorPending
        ⟨s.migrations, (dbSucc s.db m).versions, dbSucc s.db m⟩ = rest := by
      show getPendingMigrations s.migrations
        (s.db.versions ++ [⟨s.db.versions.length + 1, m.ID, s.db.versions.length⟩]) = rest
      rw [getPending_append_one, hpend0, List.filter_cons]
      simp only [beq_self_eq_true, Bool.not_true, Bool.false_eq_true, if_false]
      apply List.filter_eq_self.mpr
      intro x hx
      have hxid : m.ID ≠ x.ID := by
        intro hEq
        exact hnotmem (hEq ▸ List.mem_map_of_mem Migration.ID hx)
      simp [hxid]
    obtain ⟨s1, hloop, hp1, hs1, hm1⟩ :=
      ih ⟨s.migrations, (dbSucc s.db m).versions, dbSucc s.db m⟩ (c + 1) rfl hpend1 hndrest
    refine ⟨s1, ?_, hp1, hs1, hm1⟩
    show executeAllLoop happyOracle (rest.length + 1 + 1) c s = _
    rw [executeAllLoop_step_ok happyOracle (rest.length + 1) c s _ hnext, hloop]
    have hcnt : c + 1 + rest.length = c + (m :: rest).length := by
      simp [List.length_cons]; omega
    rw [hcnt]

/-- C5: on an engine whose cache matches the store and whose N loaded
migrations (with distinct ids) are all pending, the fault-free batch run
returns N with an iteration budget of N+1, leaves zero pending, and a
second batch run on the resulting engine returns 0 under any budget;
moreover, for every oracle, the loop stops at the very first erroring
iteration, returning the count of migrations that succeeded before it, and
each successful iteration adds exactly one to the count. -/
theorem C5_execute_all (s : ExecState)
    (hsync : s.applied = s.db.versions)
    (hpend : executorPending s = s.migrations)
    (hnd : (s.migrations.map Migration.ID).Nodup) :
    (∃ s1 : ExecState,
        executeAllMigrations happyOracle (s.migrations.length + 1) s =
          some ((s.migrations.length, none), s1) ∧
        executorPending s1 = [] ∧
        (∀ fuel : Nat,
          executeAllMigrations happyOracle (fuel + 1) s1 = some ((0, none), s1))) ∧
    (∀ (o : Oracle) (s' s1 : ExecState) (b : Bool) (e : ExecErr) (fuel c : Nat),
        executeNextMigration o s' = (b, some e, s1) →
        executeAllLoop o (fuel + 1) c s' = some ((c, some e), s1)) ∧
    (∀ (o : Oracle) (s' s1 : ExecState) (fuel c : Nat),
        executeNextMigration o s' = (true, none, s1) →
        executeAllLoop o (fuel + 1) c s' = executeAllLoop o fuel (c + 1) s1) := by
  refine ⟨?_, ?_, ?_⟩
  · obtain ⟨s1, hloop, hp1, hs1, _⟩ :=
      executeAll_happy_aux s.migrations s 0 hsync hpend hnd
    refine ⟨s1, ?_, hp1, fun fuel => ?_⟩
    · unfold executeAllMigrations
      simpa using hloop
    · unfold executeAllMigrations
      simp only [executeAllLoop, executeNextMigration, hp1]
  · intro o s' s1 b e fuel c hnext
    exact executeAllLoop_step_err o fuel c s' s1 b e hnext
  · intro o s' s1 fuel c hnext
    exact executeAllLoop_step_ok o fuel c s' s1 hnext

/-- A second, directive-disabled migration for the batch witness. -/
def migEx2 : Migration :=
  ⟨"2023_01_02_10_00_00_add_email", "add_email",
   "2023_01_02_10_00_00_add_email.sql",
   "ALTER TABLE users ADD COLUMN email TEXT;", false, ⟨2023, 1, 2, 10, 0, 0⟩⟩

/-- Witness for C5 at a concrete fully-pending two-migration engine. -/
theorem C5_execute_all_witness :
    (((⟨[migEx, migEx2, migExTx], [], dbEmpty⟩ : ExecState).applied =
        (⟨[migEx, migEx2, migExTx], [], dbEmpty⟩ : ExecState).db.versions ∧
      executorPending ⟨[migEx, migEx2, migExTx], [], dbEmpty⟩ =
        [migEx, migEx2, migExTx] ∧
      (([migEx, migEx2, migExTx] : List Migration).map Migration.ID).Nodup) ∧
    ((∃ s1 : ExecState,
        executeAllMigrations happyOracle
            (([migEx, migEx2, migExTx] : List Migration).length + 1)
            ⟨[migEx, migEx2, migExTx], [], dbEmpty⟩ =
          some ((([migEx, migEx2, migExTx] : List Migration).length, none), s1) ∧
        executorPending s1 = [] ∧
        (∀ fuel : Nat,
          executeAllMigrations happyOracle (fuel + 1) s1 = some ((0, none), s1))) ∧
      (∀ (o : Oracle) (s' s1 : ExecState) (b : Bool) (e : ExecErr) (fuel c : Nat),
          executeNextMigration o s' = (b, some e, s1) →
          executeAllLoop o (fuel + 1) c s' = some ((c, some e), s1)) ∧
      (∀ (o : Oracle) (s' s1 : ExecState) (fuel c : Nat),
          executeNextMigration o s' = (true, none, s1) →
          executeAllLoop o (fuel + 1) c s' = executeAllLoop o fuel (c + 1) s1))) :=
  ⟨⟨rfl, by decide, by decide⟩,
   C5_execute_all ⟨[migEx, migEx2, migExTx], [], dbEmpty⟩ rfl (by decide) (by decide)⟩
